import Mathlib

/-!
Verification of the dual-token authentication/session core of the
applemusic-mcp server, shallowly embedded from the TypeScript sources.

Sources embedded here:
* `auth/appleMusicAuth.ts` — `clampTTL`, the developer-token
  cache/single-flight provider `createDeveloperTokenProvider`;
* `auth/oauthServer.ts` — `storeUserToken`, `getStoredUserToken`,
  `handleOAuthCallback`, the periodic expired-state sweep;
* `build/auth/oauthToken.js` — `handleOAuthToken` (session-tracking mode);
* `src/client.ts` — `parseBearerToken`, the stateless
  `handleOAuthToken`, the per-request token extraction in `main` and the
  session-token resolution used by the tool handlers.

Times are modelled as natural numbers (epoch seconds or milliseconds, as
in the corresponding source site).  JavaScript `Map` objects are
modelled as association lists with `mapGet` / `mapSet` / `mapDelete`
mirroring `Map.get` / `Map.set` / `Map.delete`.
-/

namespace AppleMusicMCP

/-! ### Association-list model of a JavaScript `Map` keyed by strings -/

/-- JavaScript `Map.get k`: the value stored for key `k`, if any. -/
def mapGet {α : Type} (m : List (String × α)) (k : String) : Option α :=
  match m with
  | [] => none
  | (k', v) :: rest => if k' = k then some v else mapGet rest k

/-- JavaScript `Map.set k v`: replace the entry for `k` if present, else append. -/
def mapSet {α : Type} (m : List (String × α)) (k : String) (v : α) :
    List (String × α) :=
  match m with
  | [] => [(k, v)]
  | (k', v') :: rest =>
    if k' = k then (k, v) :: rest else (k', v') :: mapSet rest k v

/-- JavaScript `Map.delete k`: remove any entry for `k`. -/
def mapDelete {α : Type} (m : List (String × α)) (k : String) :
    List (String × α) :=
  m.filter (fun kv => kv.1 ≠ k)

theorem mapGet_mapSet_self {α : Type} (m : List (String × α)) (k : String)
    (v : α) : mapGet (mapSet m k v) k = some v := by
  induction m with
  | nil => simp [mapSet, mapGet]
  | cons hd tl ih =>
    by_cases h : hd.1 = k
    · simp [mapSet, mapGet, h]
    · simp [mapSet, mapGet, h, ih]

theorem mapGet_mapSet_ne {α : Type} (m : List (String × α)) (k k' : String)
    (v : α) (h : k ≠ k') : mapGet (mapSet m k v) k' = mapGet m k' := by
  induction m with
  | nil => simp [mapSet, mapGet, h]
  | cons hd tl ih =>
    by_cases hh : hd.1 = k
    · simp [mapSet, mapGet, hh, h]
    · simp [mapSet, mapGet, hh, ih]

theorem mapGet_mapDelete_self {α : Type} (m : List (String × α))
    (k : String) : mapGet (mapDelete m k) k = none := by
  induction m with
  | nil => simp [mapDelete, mapGet]
  | cons hd tl ih =>
    by_cases h : hd.1 = k
    · simpa [mapDelete, mapGet, h] using ih
    · simpa [mapDelete, mapGet, h] using ih

/-! ### `clampTTL` (appleMusicAuth.ts)

```
const SIX_MONTHS_SECONDS = 60 * 60 * 24 * 30 * 6;
function clampTTL(ttlSeconds: number): number {
  const safe = Math.max(60, Math.min(ttlSeconds, SIX_MONTHS_SECONDS));
  return safe;
}
```
The requested lifetime is an arbitrary (possibly negative) number, so it
is modelled as an integer. -/

def SIX_MONTHS_SECONDS : Int := 60 * 60 * 24 * 30 * 6

/-- Function `clampTTL` from appleMusicAuth.ts: clamp the requested lifetime into
`[60, SIX_MONTHS_SECONDS]`.  The source function is total: it never
throws, it only clamps. -/
def clampTTL (ttlSeconds : Int) : Int :=
  max 60 (min ttlSeconds SIX_MONTHS_SECONDS)

/-! ### The developer-token cache / single-flight provider

`createDeveloperTokenProvider` (appleMusicAuth.ts, lines 57-86) closes
over two mutable slots:

```
let cached: CachedToken | undefined;
let inFlight: Promise<string> | undefined;
```

The `getToken` closure runs, atomically on the single-threaded
JavaScript event loop, the synchronous prologue (lines 62-76): check the
cache, join an in-flight mint if one exists, otherwise install a fresh
in-flight mint (one call to `generateDeveloperToken`).  The mint itself
suspends (key import / signing are asynchronous); when it settles, its
continuation atomically stores the result in `cached`, clears
`inFlight`, and resolves every caller awaiting that promise (the
`finally` clause clears `inFlight` on the failure path as well).

The model below captures exactly this event-loop granularity:
`getTokenStep` is the synchronous prologue, `resolveMintSuccess` /
`resolveMintFailure` are the settling of the in-flight mint, and
`deliver` / `deliverFailure` propagate the settled value to the awaiting
callers.  `mintCount` counts the calls to `generateDeveloperToken`. -/

structure CachedToken where
  token : String
  expiresAtEpoch : Nat   -- epoch seconds
deriving DecidableEq, Repr

structure ProviderState where
  cached : Option CachedToken
  inFlight : Bool
  mintCount : Nat
deriving DecidableEq, Repr

/-- What a single call to `getToken` has observed so far. -/
inductive CallerStatus where
  | notStarted
  | awaitingMint
  | done (tok : String)
  | failed
deriving DecidableEq, Repr

/-- Lines 66-76 of appleMusicAuth.ts: either join the in-flight mint or
start a new one (`inFlight = (async () => ...)()` performs the one call
to `generateDeveloperToken`). -/
def joinOrStart (p : ProviderState) : ProviderState × CallerStatus :=
  if p.inFlight then (p, .awaitingMint)
  else ({ p with inFlight := true, mintCount := p.mintCount + 1 },
        .awaitingMint)

/-- The synchronous prologue of `getToken` (lines 62-76):

```
const now = Math.floor(Date.now() / 1000);
if (cached && cached.expiresAtEpoch - 300 > now) {
  return cached.token;
}
if (inFlight) return inFlight;
inFlight = (async () => { ... })();
```
-/
def getTokenStep (now : Nat) (p : ProviderState) :
    ProviderState × CallerStatus :=
  match p.cached with
  | some ct =>
    if ct.expiresAtEpoch - 300 > now then (p, .done ct.token)
    else joinOrStart p
  | none => joinOrStart p

/-- The in-flight mint settles successfully with token `tok` whose
parsed `exp` claim is `e`: store it in the cache and clear the in-flight
marker (lines 73-74, and the `finally` on line 81). -/
def resolveMintSuccess (tok : String) (e : Nat) (p : ProviderState) :
    ProviderState :=
  { cached := some ⟨tok, e⟩, inFlight := false, mintCount := p.mintCount }

/-- The in-flight mint fails: the cache assignment on line 73 never
runs, and the `finally` clause (line 81) still clears the in-flight
marker before the call returns. -/
def resolveMintFailure (p : ProviderState) : ProviderState :=
  { p with inFlight := false }

/-- A caller awaiting the in-flight promise receives the token it
resolved with. -/
def deliver (tok : String) (c : CallerStatus) : CallerStatus :=
  match c with
  | .awaitingMint => .done tok
  | other => other

/-- A caller awaiting the in-flight promise receives its rejection. -/
def deliverFailure (c : CallerStatus) : CallerStatus :=
  match c with
  | .awaitingMint => .failed
  | other => other

/-- The cache-validity test of line 63, as the source writes it. -/
def cacheValid (now : Nat) (c : Option CachedToken) : Bool :=
  match c with
  | some ct => decide (ct.expiresAtEpoch - 300 > now)
  | none => false

/-- Two callers `a`, `b` sharing one provider closure. -/
structure TwoCallers where
  prov : ProviderState
  a : CallerStatus
  b : CallerStatus
deriving DecidableEq, Repr

/-- Caller `a` runs the synchronous prologue of `getToken`. -/
def stepA (now : Nat) (s : TwoCallers) : TwoCallers :=
  let r := getTokenStep now s.prov
  ⟨r.1, r.2, s.b⟩

/-- Caller `b` runs the synchronous prologue of `getToken`. -/
def stepB (now : Nat) (s : TwoCallers) : TwoCallers :=
  let r := getTokenStep now s.prov
  ⟨r.1, s.a, r.2⟩

/-- The in-flight mint settles with `tok`/`e` and both callers'
pending awaits resolve. -/
def resolveOk (tok : String) (e : Nat) (s : TwoCallers) : TwoCallers :=
  ⟨resolveMintSuccess tok e s.prov, deliver tok s.a, deliver tok s.b⟩

/-- Two concurrent `getToken` calls: both synchronous prologues run (in
either order — `aFirst` picks the interleaving) before the in-flight
mint settles, then the mint settles with token `tok`. -/
def runConcurrentGet (aFirst : Bool) (now : Nat) (tok : String) (e : Nat)
    (s : TwoCallers) : TwoCallers :=
  let s1 := if aFirst then stepB now (stepA now s) else stepA now (stepB now s)
  resolveOk tok e s1

/-! ### The user-credential store (oauthServer.ts)

```
const userTokens = new Map<string, { token: string; expiresAt?: number }>();

export function getStoredUserToken(sessionId?: string): string | undefined {
  if (!sessionId) return undefined;
  const stored = userTokens.get(sessionId);
  if (!stored) return undefined;
  if (stored.expiresAt && stored.expiresAt < Date.now()) {
    userTokens.delete(sessionId);
    return undefined;
  }
  return stored.token;
}

export function storeUserToken(sessionId: string, token: string, expiresIn?: number): void {
  const expiresAt = expiresIn ? Date.now() + expiresIn * 1000 : undefined;
  userTokens.set(sessionId, { token, expiresAt });
}
```

`Date.now()` is passed in as `now` (epoch milliseconds).  JavaScript
truthiness is embedded explicitly: `expiresIn ? ... : undefined` treats
an `expiresIn` of `0` as absent, and `stored.expiresAt && ...` treats a
stored expiry of `0` as absent. -/

structure UserTokenRecord where
  token : String
  expiresAt : Option Nat   -- epoch milliseconds
deriving DecidableEq, Repr

abbrev UserTokenMap := List (String × UserTokenRecord)

/-- Function `storeUserToken` from oauthServer.ts. -/
def storeUserToken (sessionId token : String) (expiresIn : Option Nat)
    (now : Nat) (m : UserTokenMap) : UserTokenMap :=
  let expiresAt : Option Nat :=
    match expiresIn with
    | some n => if n = 0 then none else some (now + n * 1000)
    | none => none
  mapSet m sessionId ⟨token, expiresAt⟩

/-- Function `getStoredUserToken` from oauthServer.ts.  Returns the resolved
token together with the (possibly lazily-evicted) store. -/
def getStoredUserToken (sessionId : Option String) (now : Nat)
    (m : UserTokenMap) : Option String × UserTokenMap :=
  match sessionId with
  | none => (none, m)
  | some sid =>
    match mapGet m sid with
    | none => (none, m)
    | some stored =>
      match stored.expiresAt with
      | some e =>
        if e ≠ 0 ∧ e < now then (none, mapDelete m sid)
        else (some stored.token, m)
      | none => (some stored.token, m)

/-! ### The pending-authorization-state store and the OAuth callback
(oauthServer.ts)

```
const pendingStates = new Map<string, { redirectUri: string; expiresAt: number }>();

setInterval(() => {
  const now = Date.now();
  for (const [state, data] of pendingStates) {
    if (data.expiresAt < now) {
      pendingStates.delete(state);
    }
  }
}, 60000);
```
-/

structure PendingState where
  redirectUri : String
  expiresAt : Nat   -- epoch milliseconds
deriving DecidableEq, Repr

abbrev PendingStateMap := List (String × PendingState)

/-- The body of the periodic sweep: drop every entry whose recorded
expiry is in the past. -/
def cleanupExpiredStates (now : Nat) (ps : PendingStateMap) :
    PendingStateMap :=
  ps.filter (fun kv => ¬ kv.2.expiresAt < now)

/-- The server-side OAuth state shared by the handshake handlers. -/
structure OAuthServerState where
  pendingStates : PendingStateMap
  userTokens : UserTokenMap
deriving DecidableEq, Repr

/-- The handshake handlers' HTTP outcomes: a 4xx client error with a
plain-text body, or a 302 redirect carrying `code` and `state` query
parameters. -/
inductive CallbackResponse where
  | badRequest (body : String)
  | redirect (redirectUri code st : String)
deriving DecidableEq, Repr

/-- Function `handleOAuthCallback` from oauthServer.ts (lines 179-219):

```
const musicUserToken = params.get("music_user_token");
const state = params.get("state");
if (!musicUserToken || !state) { 400 "Missing token or state" }
const stateData = pendingStates.get(state);
if (!stateData) { 400 "Invalid or expired state" }
pendingStates.delete(state);
const accessToken = musicUserToken;
const sessionId = randomUUID();
storeUserToken(sessionId, musicUserToken);
redirect 302 to stateData.redirectUri with code=accessToken, state=state
```

`randomUUID()` is passed in as `freshSessionId`; `now` is the request
time (epoch milliseconds).  Note that the handler consults only the
*presence* of the pending entry — the entry's recorded `expiresAt` is
read nowhere in this function, and `now` flows only into
`storeUserToken` (where it is unused because no `expiresIn` is given). -/
def handleOAuthCallback (musicUserToken state : Option String)
    (freshSessionId : String) (now : Nat) (st : OAuthServerState) :
    CallbackResponse × OAuthServerState :=
  match musicUserToken, state with
  | some tok, some s =>
    if tok = "" ∨ s = "" then (.badRequest "Missing token or state", st)
    else
      match mapGet st.pendingStates s with
      | none => (.badRequest "Invalid or expired state", st)
      | some stateData =>
        let ps := mapDelete st.pendingStates s
        let ut := storeUserToken freshSessionId tok none now st.userTokens
        (.redirect stateData.redirectUri tok s, ⟨ps, ut⟩)
  | _, _ => (.badRequest "Missing token or state", st)

/-! ### Token exchange (build/auth/oauthToken.js and src/client.ts)

Session-tracking mode (build/auth/oauthToken.js):

```
const grantType = params.get("grant_type");
const code = params.get("code");
if (grantType !== "authorization_code" || !code) {
  400 {"error": "invalid_request"}
}
const accessToken = randomUUID();
const sessionId = accessToken;
storeUserToken(sessionId, code, 3600 * 24 * 90);
200 { access_token: accessToken, token_type: "Bearer",
      expires_in: 3600 * 24 * 90, scope: "..." }
```
-/

structure TokenResponseBody where
  access_token : String
  token_type : String
  expires_in : Nat
  scope : String
deriving DecidableEq, Repr

inductive TokenResponse where
  | badRequest (error : String)
  | ok (body : TokenResponseBody)
deriving DecidableEq, Repr

/-- Function `handleOAuthToken` from build/auth/oauthToken.js.  `randomUUID()` is
passed in as `freshUUID`.  JavaScript truthiness: `!code` is also true
for an empty-string code. -/
def handleOAuthToken (grantType code : Option String) (freshUUID : String)
    (now : Nat) (m : UserTokenMap) : TokenResponse × UserTokenMap :=
  match grantType, code with
  | some gt, some c =>
    if gt ≠ "authorization_code" ∨ c = "" then
      (.badRequest "invalid_request", m)
    else
      let m2 := storeUserToken freshUUID c (some (3600 * 24 * 90)) now m
      (.ok ⟨freshUUID, "Bearer", 3600 * 24 * 90,
            "music.library.read music.library.write"⟩, m2)
  | _, _ => (.badRequest "invalid_request", m)

/-- Function `handleOAuthToken` from src/client.ts (stateless mode, lines
166-195): same parameter validation, but the code itself is echoed back
as the access token and no store is consulted or written. -/
def handleOAuthTokenStateless (grantType code : Option String) :
    TokenResponse :=
  match grantType, code with
  | some gt, some c =>
    if gt ≠ "authorization_code" ∨ c = "" then
      .badRequest "invalid_request"
    else
      .ok ⟨c, "Bearer", 60 * 60 * 24 * 90,
           "music.library.read music.library.write"⟩
  | _, _ => .badRequest "invalid_request"

/-! ### Bearer-header parsing and per-request token extraction
(src/client.ts)

```
function parseBearerToken(authHeader?: string): string | undefined {
  if (!authHeader) return undefined;
  const [scheme, value] = authHeader.split(" ");
  if (!scheme || !value) return undefined;
  if (scheme.toLowerCase() !== "bearer") return undefined;
  return value.trim();
}
```

`split(" ")` splits on *every* space; the array destructuring keeps the
first two fields and silently drops the rest.  `!scheme` / `!value`
catch both a missing field and an empty-string field.

The JavaScript string primitives `split(" ")`, `toLowerCase` and `trim`
are modelled character-by-character (`jsSplitSpace`, `jsToLower`,
`jsTrim`), matching their JavaScript semantics on the inputs at hand:
`split` with a one-character separator cuts at every occurrence and
keeps empty fields ("".split(" ") is [""]), `toLowerCase` lower-cases
each character, `trim` strips leading and trailing whitespace. -/

def splitSpaceAux : List Char → List Char → List (List Char)
  | [], acc => [acc.reverse]
  | c :: rest, acc =>
    if c = ' ' then acc.reverse :: splitSpaceAux rest []
    else splitSpaceAux rest (c :: acc)

/-- JavaScript `s.split(" ")`. -/
def jsSplitSpace (s : String) : List String :=
  (splitSpaceAux s.toList []).map List.asString

/-- JavaScript `s.toLowerCase()` (ASCII-relevant part). -/
def jsToLower (s : String) : String :=
  (s.toList.map Char.toLower).asString

/-- JavaScript `s.trim()`. -/
def jsTrim (s : String) : String :=
  (((s.toList.dropWhile Char.isWhitespace).reverse.dropWhile
      Char.isWhitespace).reverse).asString

/-- Function `parseBearerToken` from src/client.ts (lines 415-421). -/
def parseBearerToken (authHeader : Option String) : Option String :=
  match authHeader with
  | none => none
  | some h =>
    if h = "" then none
    else
      match jsSplitSpace h with
      | scheme :: value :: _ =>
        if scheme = "" then none
        else if value = "" then none
        else if jsToLower scheme ≠ "bearer" then none
        else some (jsTrim value)
      | _ => none

/-! The per-request credential state of `main` in src/client.ts:

```
const sessionTokens = new Map<string, string>();
let pendingToken: string | undefined;
```
-/

structure McpState where
  sessionTokens : List (String × String)
  pendingToken : Option String
deriving DecidableEq, Repr

/-- The credential-relevant parts of one inbound MCP request: the
`authorization` header and the `mcp-session-id` header. -/
structure McpRequest where
  authorization : Option String
  sessionId : Option String
deriving DecidableEq, Repr

/-- The pre-handler token extraction in `main` (src/client.ts, lines
716-739):

```
const authHeader = req.headers.authorization;
const sessionId = req.headers["mcp-session-id"];
if (authHeader) {
  const token = parseBearerToken(authHeader);
  if (token) {
    pendingToken = token;
    if (sessionId) {
      sessionTokens.set(sessionId, token);
    }
  }
} else if (sessionId && pendingToken) {
  sessionTokens.set(sessionId, pendingToken);
}
```

An unparseable (or empty-string) bearer value leaves the state
untouched — the `else` branch is not taken when the header is present.
JavaScript truthiness of the header and session-id strings is embedded
explicitly. -/
def preHandle (r : McpRequest) (st : McpState) : McpState :=
  match r.authorization with
  | some h =>
    if h = "" then
      match r.sessionId, st.pendingToken with
      | some sid, some p =>
        if sid = "" then st
        else { st with sessionTokens := mapSet st.sessionTokens sid p }
      | _, _ => st
    else
      match parseBearerToken (some h) with
      | some tok =>
        if tok = "" then st
        else
          { pendingToken := some tok,
            sessionTokens :=
              match r.sessionId with
              | some sid =>
                if sid = "" then st.sessionTokens
                else mapSet st.sessionTokens sid tok
              | none => st.sessionTokens }
      | none => st
  | none =>
    match r.sessionId, st.pendingToken with
    | some sid, some p =>
      if sid = "" then st
      else { st with sessionTokens := mapSet st.sessionTokens sid p }
    | _, _ => st

/-- The user-credential resolution performed by every library tool
handler (src/client.ts, e.g. lines 310-316):

```
const sessionId = resolveSessionId(extra);
const userToken = sessionId ? sessionTokens.get(sessionId) : pendingToken;
```
-/
def resolveUserToken (r : McpRequest) (st : McpState) : Option String :=
  match r.sessionId with
  | some sid =>
    if sid = "" then st.pendingToken else mapGet st.sessionTokens sid
  | none => st.pendingToken

/-! ## Helper lemmas about the provider model -/

/-- With an invalid (or absent) cache and no mint underway, the
synchronous prologue of `getToken` starts a fresh mint. -/
theorem getTokenStep_start (now : Nat) (p : ProviderState)
    (hc : cacheValid now p.cached = false) (hf : p.inFlight = false) :
    getTokenStep now p =
      ({ p with inFlight := true, mintCount := p.mintCount + 1 },
       .awaitingMint) := by
  cases hcc : p.cached with
  | none => simp [getTokenStep, joinOrStart, hf, hcc]
  | some ct =>
    rw [hcc] at hc
    simp only [cacheValid, decide_eq_false_iff_not] at hc
    simp [getTokenStep, hcc, hc, joinOrStart, hf]

/-- With an invalid (or absent) cache and a mint already underway, the
synchronous prologue of `getToken` joins the in-flight mint: the
provider state is unchanged and no new mint starts. -/
theorem getTokenStep_join (now : Nat) (p : ProviderState)
    (hc : cacheValid now p.cached = false) (hf : p.inFlight = true) :
    getTokenStep now p = (p, .awaitingMint) := by
  cases hcc : p.cached with
  | none => simp [getTokenStep, joinOrStart, hf, hcc]
  | some ct =>
    rw [hcc] at hc
    simp only [cacheValid, decide_eq_false_iff_not] at hc
    simp [getTokenStep, hcc, hc, joinOrStart, hf]

/-! ## Claim theorems -/

/-- C6: for every requested lifetime `L` (in seconds), `clampTTL L`
lies in `[60, 15552000]`, and `clampTTL L = L` whenever
`60 ≤ L ≤ 15552000`.  `clampTTL` is a total function — an
out-of-range lifetime is clamped into range, never rejected with an
error. -/
theorem clampTTL_clamps (L : Int) :
    60 ≤ clampTTL L ∧ clampTTL L ≤ 15552000 ∧
      (60 ≤ L → L ≤ 15552000 → clampTTL L = L) := by
  unfold clampTTL SIX_MONTHS_SECONDS
  refine ⟨?_, ?_, fun h1 h2 => ?_⟩ <;> omega

/-- Witness for C6 at the concrete lifetime 86400. -/
theorem clampTTL_clamps_witness :
    60 ≤ clampTTL 86400 ∧ clampTTL 86400 ≤ 15552000 ∧
      clampTTL 86400 = 86400 := by
  obtain ⟨h1, h2, h3⟩ := clampTTL_clamps 86400
  exact ⟨h1, h2, h3 (by decide) (by decide)⟩

/-- C3: a call to `getToken` (with no mint already underway, the
quiescent case) returns the cached token without starting a mint
exactly when the cached expiry is more than 300 seconds after the
current time; if the cached expiry is at most 300 seconds in the
future, or nothing is cached, a new mint is started (the mint count
increases by one and the in-flight marker is set). -/
theorem getToken_cache_margin (now : Nat) (p : ProviderState)
    (hf : p.inFlight = false) :
    (∀ ct, p.cached = some ct → now + 300 < ct.expiresAtEpoch →
      getTokenStep now p = (p, .done ct.token)) ∧
    (∀ ct, p.cached = some ct → ct.expiresAtEpoch ≤ now + 300 →
      getTokenStep now p =
        ({ p with inFlight := true, mintCount := p.mintCount + 1 },
         .awaitingMint)) ∧
    (p.cached = none →
      getTokenStep now p =
        ({ p with inFlight := true, mintCount := p.mintCount + 1 },
         .awaitingMint)) := by
  refine ⟨?_, ?_, ?_⟩
  · intro ct hct hlt
    have hgt : ct.expiresAtEpoch - 300 > now := by omega
    simp [getTokenStep, hct, hgt]
  · intro ct hct hle
    have hc : cacheValid now p.cached = false := by
      rw [hct]
      simp only [cacheValid, decide_eq_false_iff_not]
      omega
    exact getTokenStep_start now p hc hf
  · intro hnone
    have hc : cacheValid now p.cached = false := by
      rw [hnone]
      rfl
    exact getTokenStep_start now p hc hf

/-- Witness for C3: a cached token with expiry 10000 at time 5000 is
returned as-is; at time 9800 (expiry only 200 s away) a new mint
starts. -/
theorem getToken_cache_margin_witness :
    getTokenStep 5000 ⟨some ⟨"tok", 10000⟩, false, 7⟩ =
      (⟨some ⟨"tok", 10000⟩, false, 7⟩, .done "tok") ∧
    getTokenStep 9800 ⟨some ⟨"tok", 10000⟩, false, 7⟩ =
      (⟨some ⟨"tok", 10000⟩, true, 8⟩, .awaitingMint) := by
  constructor
  · exact (getToken_cache_margin 5000 ⟨some ⟨"tok", 10000⟩, false, 7⟩
      rfl).1 ⟨"tok", 10000⟩ rfl (by decide)
  · exact (getToken_cache_margin 9800 ⟨some ⟨"tok", 10000⟩, false, 7⟩
      rfl).2.1 ⟨"tok", 10000⟩ rfl (by decide)

/-- C1: when two callers concurrently invoke `getToken` (both
synchronous prologues run, in either order, before the mint settles)
while no valid cached credential exists and no mint is underway,
exactly one mint operation — one call to `generateDeveloperToken` — is
performed, and both callers receive the identical token string. -/
theorem singleFlight_concurrent_mint (aFirst : Bool) (now : Nat)
    (tok : String) (e : Nat) (p0 : ProviderState)
    (hc : cacheValid now p0.cached = false) (hf : p0.inFlight = false) :
    (runConcurrentGet aFirst now tok e
        ⟨p0, .notStarted, .notStarted⟩).prov.mintCount
      = p0.mintCount + 1 ∧
    (runConcurrentGet aFirst now tok e
        ⟨p0, .notStarted, .notStarted⟩).a = .done tok ∧
    (runConcurrentGet aFirst now tok e
        ⟨p0, .notStarted, .notStarted⟩).b = .done tok := by
  have hstart := getTokenStep_start now p0 hc hf
  have hc1 : cacheValid now
      ({ p0 with inFlight := true, mintCount := p0.mintCount + 1 } :
        ProviderState).cached = false := hc
  have hjoin := getTokenStep_join now
    { p0 with inFlight := true, mintCount := p0.mintCount + 1 } hc1 rfl
  cases aFirst <;>
    simp [runConcurrentGet, stepA, stepB, hstart, hjoin, resolveOk,
      resolveMintSuccess, deliver]

/-- Witness for C1: from an empty provider state at time 0, with caller
b scheduled first, one mint happens and both callers get `"TOK"`. -/
theorem singleFlight_concurrent_mint_witness :
    (runConcurrentGet false 0 "TOK" 86400
        ⟨⟨none, false, 0⟩, .notStarted, .notStarted⟩).prov.mintCount = 1 ∧
    (runConcurrentGet false 0 "TOK" 86400
        ⟨⟨none, false, 0⟩, .notStarted, .notStarted⟩).a = .done "TOK" ∧
    (runConcurrentGet false 0 "TOK" 86400
        ⟨⟨none, false, 0⟩, .notStarted, .notStarted⟩).b = .done "TOK" :=
  singleFlight_concurrent_mint false 0 "TOK" 86400 ⟨none, false, 0⟩ rfl rfl

/-- C4: when the mint started by a `getToken` call fails, the failure
propagates to the caller awaiting it, the cached credential is exactly
what it was before the call, the in-flight marker is cleared before the
call returns, and a subsequent call (still without a valid cache)
starts a fresh mint rather than being blocked by a stuck in-flight
slot. -/
theorem mint_failure_cleanup (now : Nat) (p0 : ProviderState)
    (hc : cacheValid now p0.cached = false) (hf : p0.inFlight = false) :
    deliverFailure (getTokenStep now p0).2 = .failed ∧
    (resolveMintFailure (getTokenStep now p0).1).cached = p0.cached ∧
    (resolveMintFailure (getTokenStep now p0).1).inFlight = false ∧
    (∀ now2,
      cacheValid now2 (resolveMintFailure (getTokenStep now p0).1).cached
          = false →
      getTokenStep now2 (resolveMintFailure (getTokenStep now p0).1) =
        ({ resolveMintFailure (getTokenStep now p0).1 with
            inFlight := true,
            mintCount :=
              (resolveMintFailure (getTokenStep now p0).1).mintCount + 1 },
         .awaitingMint)) := by
  have hstart := getTokenStep_start now p0 hc hf
  rw [hstart]
  refine ⟨rfl, rfl, rfl, fun now2 hc2 => ?_⟩
  exact getTokenStep_start now2 _ hc2 rfl

/-- Witness for C4 at the empty provider state and time 0: the caller
fails, the cache stays empty, the marker is cleared, and a retry at
time 1 starts a second mint. -/
theorem mint_failure_cleanup_witness :
    deliverFailure (getTokenStep 0 ⟨none, false, 0⟩).2 = .failed ∧
    (resolveMintFailure (getTokenStep 0 ⟨none, false, 0⟩).1).cached = none ∧
    (resolveMintFailure (getTokenStep 0 ⟨none, false, 0⟩).1).inFlight
        = false ∧
    getTokenStep 1 (resolveMintFailure (getTokenStep 0 ⟨none, false, 0⟩).1) =
      (⟨none, true, 2⟩, .awaitingMint) := by
  obtain ⟨h1, h2, h3, h4⟩ := mint_failure_cleanup 0 ⟨none, false, 0⟩ rfl rfl
  exact ⟨h1, h2, h3, h4 1 rfl⟩

/-- C7 counterexample: `put("s", "t", ttl = 0)` at time 5 does *not*
set the record's expiry to `now + ttl` (which would be 5): the JS
truthiness test `expiresIn ? ... : undefined` treats a ttl of 0 as
absent, so the record gets no expiry at all — and a `get` far in the
future (time 1000000, long past the claimed expiry) still returns the
token instead of absent. -/
theorem storeUserToken_zero_ttl_counterexample :
    mapGet (storeUserToken "s" "t" (some 0) 5 []) "s" =
      some ⟨"t", none⟩ ∧
    (some (⟨"t", none⟩ : UserTokenRecord) ≠
      some (⟨"t", some (5 + 0 * 1000)⟩ : UserTokenRecord)) ∧
    (getStoredUserToken (some "s") 1000000
        (storeUserToken "s" "t" (some 0) 5 [])).1 = some "t" := by
  refine ⟨rfl, by simp, rfl⟩

/-- C7 (amended): `put(s, t, ttl)` unconditionally replaces any
existing record for `s`, setting expiry to `now + ttl` when a *nonzero*
ttl is given and no expiry otherwise (a ttl of zero is treated exactly
like an absent ttl); `get(s)` returns `t` while the record is present
and its expiry is absent or in the future; once the expiry has passed,
`get(s)` returns absent and evicts the record as a side effect, so a
second `get(s)` still returns absent rather than an error. -/
theorem userTokenStore_put_get (s t : String) (now : Nat)
    (m : UserTokenMap) :
    (∀ n, n ≠ 0 →
      mapGet (storeUserToken s t (some n) now m) s =
        some ⟨t, some (now + n * 1000)⟩) ∧
    (∀ ttl, ttl = none ∨ ttl = some 0 →
      mapGet (storeUserToken s t ttl now m) s = some ⟨t, none⟩) ∧
    (∀ r, mapGet m s = some r →
      (r.expiresAt = none ∨ ∃ e, r.expiresAt = some e ∧ now < e) →
      getStoredUserToken (some s) now m = (some r.token, m)) ∧
    (∀ r e, mapGet m s = some r → r.expiresAt = some e → 0 < e →
      e < now →
      getStoredUserToken (some s) now m = (none, mapDelete m s) ∧
      (getStoredUserToken (some s) now (mapDelete m s)).1 = none) := by
  refine ⟨?_, ?_, ?_, ?_⟩
  · intro n hn
    simp [storeUserToken, hn, mapGet_mapSet_self]
  · rintro ttl (rfl | rfl) <;> simp [storeUserToken, mapGet_mapSet_self]
  · rintro r hr (hnone | ⟨e, he, hlt⟩)
    · simp [getStoredUserToken, hr, hnone]
    · have : ¬ (e ≠ 0 ∧ e < now) := by omega
      simp [getStoredUserToken, hr, he, this]
  · intro r e hr he h0 hlt
    have hcond : e ≠ 0 ∧ e < now := ⟨by omega, hlt⟩
    constructor
    · simp [getStoredUserToken, hr, he, hcond]
    · simp [getStoredUserToken, mapGet_mapDelete_self]

/-- Witness for C7 (amended) at a concrete store: a record stored with
ttl 1 at time 0 expires at 1000; a `get` at time 500 returns it, a
`get` at time 2000 evicts it and a second `get` still returns absent. -/
theorem userTokenStore_put_get_witness :
    mapGet (storeUserToken "s" "t" (some 1) 0 []) "s" =
      some ⟨"t", some 1000⟩ ∧
    getStoredUserToken (some "s") 500 [("s", ⟨"t", some 1000⟩)] =
      (some "t", [("s", ⟨"t", some 1000⟩)]) ∧
    getStoredUserToken (some "s") 2000 [("s", ⟨"t", some 1000⟩)] =
      (none, mapDelete [("s", ⟨"t", some 1000⟩)] "s") ∧
    (getStoredUserToken (some "s") 2000
        (mapDelete [("s", ⟨"t", some 1000⟩)] "s")).1 = none := by
  have h0 := userTokenStore_put_get "s" "t" 0 ([] : UserTokenMap)
  have h1 := userTokenStore_put_get "s" "t" 500
    ([("s", ⟨"t", some 1000⟩)] : UserTokenMap)
  have h2 := userTokenStore_put_get "s" "t" 2000
    ([("s", ⟨"t", some 1000⟩)] : UserTokenMap)
  refine ⟨h0.1 1 (by decide), ?_, ?_, ?_⟩
  · exact h1.2.2.1 ⟨"t", some 1000⟩ rfl (Or.inr ⟨1000, rfl, by decide⟩)
  · exact (h2.2.2.2 ⟨"t", some 1000⟩ 1000 rfl rfl (by decide) (by decide)).1
  · exact (h2.2.2.2 ⟨"t", some 1000⟩ 1000 rfl rfl (by decide) (by decide)).2

/-- C2 counterexample: at request time 200 the sole pending-state entry
(recorded expiry 100) has already expired, yet the callback succeeds
with a 302 redirect — `handleOAuthCallback` checks only that the entry
is *present*, never its recorded expiry (expired entries are removed
only by the periodic sweep, which here has not yet run). -/
theorem callback_accepts_expired_state_counterexample :
    (100 : Nat) < 200 ∧
    (handleOAuthCallback (some "T") (some "S") "sid" 200
        ⟨[("S", ⟨"http://client/cb", 100⟩)], []⟩).1 =
      .redirect "http://client/cb" "T" "S" := by
  exact ⟨by decide, rfl⟩

/-- C2 (amended, for the session-tracking handler of oauthServer.ts):
a callback succeeds — issues a 302 redirect to the recorded redirect
target with the code and the original state attached — exactly when the
presented state token is present in the pending-state store, regardless
of that entry's recorded expiry (expired entries are dropped only by
the periodic sweep); on success the pending-state entry is deleted, so
a second callback presenting the same state token fails with a client
error and issues no redirect. -/
theorem callback_state_single_consumption (tok s sid : String)
    (now : Nat) (st : OAuthServerState) (htok : tok ≠ "")
    (hs : s ≠ "") :
    (∀ sd, mapGet st.pendingStates s = some sd →
      handleOAuthCallback (some tok) (some s) sid now st =
        (.redirect sd.redirectUri tok s,
         ⟨mapDelete st.pendingStates s,
          storeUserToken sid tok none now st.userTokens⟩) ∧
      ∀ tok2 sid2 now2, tok2 ≠ "" →
        (handleOAuthCallback (some tok2) (some s) sid2 now2
            ⟨mapDelete st.pendingStates s,
             storeUserToken sid tok none now st.userTokens⟩).1 =
          .badRequest "Invalid or expired state") ∧
    (mapGet st.pendingStates s = none →
      handleOAuthCallback (some tok) (some s) sid now st =
        (.badRequest "Invalid or expired state", st)) := by
  constructor
  · intro sd hsd
    constructor
    · simp [handleOAuthCallback, htok, hs, hsd]
    · intro tok2 sid2 now2 htok2
      simp [handleOAuthCallback, htok2, hs, mapGet_mapDelete_self]
  · intro hnone
    simp [handleOAuthCallback, htok, hs, hnone]

/-- Witness for C2 (amended): a fresh pending entry for state "S" is
consumed by the first callback and a replayed callback with the same
state fails. -/
theorem callback_state_single_consumption_witness :
    handleOAuthCallback (some "T") (some "S") "sid" 50
        ⟨[("S", ⟨"http://client/cb", 600050⟩)], []⟩ =
      (.redirect "http://client/cb" "T" "S",
       ⟨mapDelete [("S", ⟨"http://client/cb", 600050⟩)] "S",
        storeUserToken "sid" "T" none 50 []⟩) ∧
    (handleOAuthCallback (some "T2") (some "S") "sid2" 60
        ⟨mapDelete [("S", ⟨"http://client/cb", 600050⟩)] "S",
         storeUserToken "sid" "T" none 50 []⟩).1 =
      .badRequest "Invalid or expired state" := by
  have h := callback_state_single_consumption "T" "S" "sid" 50
    ⟨[("S", ⟨"http://client/cb", 600050⟩)], []⟩ (by decide) (by decide)
  obtain ⟨h1, h2⟩ := h.1 ⟨"http://client/cb", 600050⟩ rfl
  exact ⟨h1, h2 "T2" "sid2" 60 (by decide)⟩

/-- C8: a token-exchange request whose `grant_type` is not exactly the
string "authorization_code" fails with a client error (400
`invalid_request`) and leaves the user-credential store completely
unchanged — in both the session-tracking handler
(build/auth/oauthToken.js) and the stateless handler (src/client.ts,
which touches no store at all). -/
theorem tokenExchange_rejects_bad_grant (gt code : Option String)
    (uuid : String) (now : Nat) (m : UserTokenMap)
    (h : gt ≠ some "authorization_code") :
    handleOAuthToken gt code uuid now m =
      (.badRequest "invalid_request", m) ∧
    handleOAuthTokenStateless gt code = .badRequest "invalid_request" := by
  cases gt with
  | none => cases code <;> simp [handleOAuthToken, handleOAuthTokenStateless]
  | some g =>
    have hg : g ≠ "authorization_code" := by
      intro hgg
      exact h (by rw [hgg])
    cases code <;>
      simp [handleOAuthToken, handleOAuthTokenStateless, hg]

/-- Witness for C8: `grant_type=client_credentials` is rejected and the
store (holding one record) is returned untouched. -/
theorem tokenExchange_rejects_bad_grant_witness :
    handleOAuthToken (some "client_credentials") (some "abc") "u" 0
        [("x", ⟨"t", none⟩)] =
      (.badRequest "invalid_request", [("x", ⟨"t", none⟩)]) ∧
    handleOAuthTokenStateless (some "client_credentials") (some "abc") =
      .badRequest "invalid_request" :=
  tokenExchange_rejects_bad_grant (some "client_credentials") (some "abc")
    "u" 0 [("x", ⟨"t", none⟩)] (by simp)

/-- C5: a request carrying a bearer credential `u1` (in a parseable
`authorization` header) together with session id `s1` binds `u1` under
`s1` in the session-token store, and a subsequent request carrying only
`s1` (no bearer header) resolves its user credential to `u1`. -/
theorem session_binding_resolves (hdr u1 s1 : String) (st : McpState)
    (hp : parseBearerToken (some hdr) = some u1) (hu : u1 ≠ "")
    (hs : s1 ≠ "") :
    mapGet (preHandle ⟨some hdr, some s1⟩ st).sessionTokens s1 =
      some u1 ∧
    resolveUserToken ⟨none, some s1⟩
        (preHandle ⟨none, some s1⟩ (preHandle ⟨some hdr, some s1⟩ st)) =
      some u1 := by
  have hhdr : hdr ≠ "" := by
    intro hh
    rw [hh] at hp
    simp [parseBearerToken] at hp
  have hst1 : preHandle ⟨some hdr, some s1⟩ st =
      { pendingToken := some u1,
        sessionTokens := mapSet st.sessionTokens s1 u1 } := by
    simp [preHandle, hhdr, hp, hu, hs]
  rw [hst1]
  constructor
  · exact mapGet_mapSet_self st.sessionTokens s1 u1
  · simp [preHandle, hs, resolveUserToken, mapGet_mapSet_self]

/-- Witness for C5: header "Bearer utok" with session "s1", then a
bare request on "s1", resolves to "utok". -/
theorem session_binding_resolves_witness :
    mapGet (preHandle ⟨some "Bearer utok", some "s1"⟩
        ⟨[], none⟩).sessionTokens "s1" = some "utok" ∧
    resolveUserToken ⟨none, some "s1"⟩
        (preHandle ⟨none, some "s1"⟩
          (preHandle ⟨some "Bearer utok", some "s1"⟩ ⟨[], none⟩)) =
      some "utok" :=
  session_binding_resolves "Bearer utok" "utok" "s1" ⟨[], none⟩ rfl
    (by decide) (by decide)

/-- C9 counterexample: with pending credential "u1" in place, a request
whose bearer credential "u2" arrives *together with* session id "s2" —
a credential that is immediately session-bound, not an unbound one —
still overwrites the pending slot, contradicting the claim that the
slot changes only via newly observed *unbound* credentials. -/
theorem pending_slot_counterexample :
    (preHandle ⟨some "Bearer u2", some "s2"⟩
        ⟨[], some "u1"⟩).pendingToken = some "u2" ∧
    (some "u2" ≠ some "u1") ∧
    mapGet (preHandle ⟨some "Bearer u2", some "s2"⟩
        ⟨[], some "u1"⟩).sessionTokens "s2" = some "u2" := by
  refine ⟨rfl, by simp, rfl⟩

/-- C9 (amended): binding the pending credential into a session-keyed
record copies it rather than moving it — the pending slot still holds
that credential afterwards; the pending slot's content changes only by
being overwritten with the bearer credential observed on the current
request (last-write-wins), *whether or not a session id accompanies
it*, and it is never cleared. -/
theorem pending_slot_behaviour (r : McpRequest) (st : McpState) :
    ((preHandle r st).pendingToken ≠ st.pendingToken →
      ∃ h tok, r.authorization = some h ∧
        parseBearerToken (some h) = some tok ∧ tok ≠ "" ∧
        (preHandle r st).pendingToken = some tok) ∧
    ((preHandle r st).pendingToken = none → st.pendingToken = none) ∧
    (∀ sid p, r.authorization = none → r.sessionId = some sid →
      sid ≠ "" → st.pendingToken = some p →
      (preHandle r st).pendingToken = some p ∧
      mapGet (preHandle r st).sessionTokens sid = some p) := by
  have key : (preHandle r st).pendingToken = st.pendingToken ∨
      (∃ h tok, r.authorization = some h ∧
        parseBearerToken (some h) = some tok ∧ tok ≠ "" ∧
        (preHandle r st).pendingToken = some tok) := by
    cases hauth : r.authorization with
    | none =>
      left
      cases hsid : r.sessionId with
      | none => simp [preHandle, hauth, hsid]
      | some sid =>
        cases hpend : st.pendingToken with
        | none => simp [preHandle, hauth, hsid, hpend]
        | some p =>
          by_cases hempty : sid = "" <;>
          · simp [preHandle, hauth, hsid, hpend, hempty]
    | some h =>
      by_cases hh : h = ""
      · left
        subst hh
        cases hsid : r.sessionId with
        | none => simp [preHandle, hauth, hsid]
        | some sid =>
          cases hpend : st.pendingToken with
          | none => simp [preHandle, hauth, hsid, hpend]
          | some p =>
            by_cases hempty : sid = "" <;>
            · simp [preHandle, hauth, hsid, hpend, hempty]
      · cases hp : parseBearerToken (some h) with
        | none => left; simp [preHandle, hauth, hh, hp]
        | some tok =>
          by_cases htok : tok = ""
          · left
            simp [preHandle, hauth, hh, hp, htok]
          · right
            exact ⟨h, tok, rfl, hp, htok,
              by simp [preHandle, hauth, hh, hp, htok]⟩
  refine ⟨?_, ?_, ?_⟩
  · intro hne
    rcases key with heq | hex
    · exact absurd heq hne
    · exact hex
  · intro hnone
    rcases key with heq | ⟨h, tok, _, _, htok, heq⟩
    · rw [← heq]; exact hnone
    · rw [heq] at hnone; simp at hnone
  · intro sid p hauth hsid hempty hpend
    constructor
    · simp [preHandle, hauth, hsid, hpend, hempty]
    · simp [preHandle, hauth, hsid, hpend, hempty, mapGet_mapSet_self]

/-- Witness for C9 (amended) at a concrete binding step: with pending
credential "p" and a bare request on session "s", the pending slot
still holds "p" afterwards and "s" is bound to "p". -/
theorem pending_slot_behaviour_witness :
    (preHandle ⟨none, some "s"⟩ ⟨[], some "p"⟩).pendingToken =
      some "p" ∧
    mapGet (preHandle ⟨none, some "s"⟩
        ⟨[], some "p"⟩).sessionTokens "s" = some "p" :=
  (pending_slot_behaviour ⟨none, some "s"⟩ ⟨[], some "p"⟩).2.2 "s" "p"
    rfl rfl (by decide) rfl

/-! ### C10: the acceptance condition of `parseBearerToken` -/

/-- The acceptance condition claim C10 ascribes to `parseBearerToken`,
written from the claim: the header splits *on a single space* into
exactly a non-empty scheme and a non-empty value, with the scheme equal
to "bearer" case-insensitively. -/
def bearerClaimAccepts (s : String) : Bool :=
  match jsSplitSpace s with
  | [scheme, value] =>
    scheme != "" && value != "" && jsToLower scheme == "bearer"
  | _ => false

/-- C10 counterexample: "Bearer abc def" does not split on a single
space into a scheme and a value (it has three space-separated fields),
so by the claim no credential should be returned — yet
`parseBearerToken` accepts it, keeping the first two fields and
silently dropping the rest, and returns "abc". -/
theorem parseBearerToken_counterexample :
    parseBearerToken (some "Bearer abc def") = some "abc" ∧
    bearerClaimAccepts "Bearer abc def" = false := by
  exact ⟨rfl, rfl⟩

/-- C10 (amended): `parseBearerToken` is total and, for every input,
returns a credential exactly when the header's first two
space-separated fields form a non-empty scheme equal to "bearer"
case-insensitively and a non-empty value — any further space-separated
fields are ignored; the returned credential is that second field with
surrounding whitespace trimmed.  An absent header, a missing or empty
scheme or value, or any other scheme yields no credential rather than
a failure. -/
theorem parseBearerToken_characterisation :
    parseBearerToken none = none ∧
    ∀ s tok,
      parseBearerToken (some s) = some tok ↔
        ∃ scheme value rest,
          jsSplitSpace s = scheme :: value :: rest ∧
          scheme ≠ "" ∧ value ≠ "" ∧ jsToLower scheme = "bearer" ∧
          tok = jsTrim value := by
  refine ⟨rfl, fun s tok => ⟨?_, ?_⟩⟩
  · intro hp
    by_cases hs : s = ""
    · rw [hs] at hp; simp [parseBearerToken] at hp
    · rcases hsplit : jsSplitSpace s with _ | ⟨scheme, _ | ⟨value, rest⟩⟩
      · simp [parseBearerToken, hs, hsplit] at hp
      · simp [parseBearerToken, hs, hsplit] at hp
      · by_cases h1 : scheme = ""
        · simp [parseBearerToken, hs, hsplit, h1] at hp
        · by_cases h2 : value = ""
          · simp [parseBearerToken, hs, hsplit, h1, h2] at hp
          · by_cases h3 : jsToLower scheme = "bearer"
            · refine ⟨scheme, value, rest, rfl, h1, h2, h3, ?_⟩
              simp [parseBearerToken, hs, hsplit, h1, h2, h3] at hp
              exact hp.symm
            · simp [parseBearerToken, hs, hsplit, h1, h2, h3] at hp
  · rintro ⟨scheme, value, rest, hsplit, h1, h2, h3, rfl⟩
    have hs : s ≠ "" := by
      intro hss
      rw [hss] at hsplit
      have : jsSplitSpace "" = [""] := rfl
      rw [this] at hsplit
      cases hsplit
    simp [parseBearerToken, hs, hsplit, h1, h2, h3]

/-- Witness for C10 (amended): the characterisation applied to the
concrete header "Bearer tok", which is accepted with credential
"tok". -/
theorem parseBearerToken_characterisation_witness :
    parseBearerToken (some "Bearer tok") = some "tok" :=
  (parseBearerToken_characterisation.2 "Bearer tok" "tok").2
    ⟨"Bearer", "tok", [], rfl, by decide, by decide, rfl, rfl⟩

end AppleMusicMCP
